import Mathlib

/-!
# Verification of the Asana release-notes generator

Shallow embedding of the release-notes pipeline (`index.js`, latest revision):
tag resolution (`getTagId`), task fetch (`getTasks`), content building
(`createContent` with its stable sort and space collapsing), and the
orchestration (`genNotes` and the prompt callback), together with theorems
checking the specification's claims.

External effects (network calls, the clock, filesystem writes) are modelled
as explicit inputs and as an emitted trace of filesystem operations.
JavaScript exceptions (`TypeError` from using `undefined`) are modelled with
`Except`.
-/

set_option maxRecDepth 100000

namespace AsanaNotes

/-- A project reference as it appears in a task's `projects` field. -/
structure ProjectRef where
  id : String
deriving DecidableEq, Repr

/-- An Asana task: `{ id, name, projects }` (fields requested via
`opt_fields=id,name,projects`). -/
structure Task where
  id : String
  name : String
  projects : List ProjectRef
deriving DecidableEq, Repr

/-- An Asana tag: `{ id, name }` from `GET /tags`. -/
structure Tag where
  id : String
  name : String
deriving DecidableEq, Repr

/-- A JavaScript runtime exception, as raised by operating on `undefined`. -/
inductive JsError where
  | typeError (msg : String)
deriving DecidableEq, Repr

/-- Model of `callAPI`: it logs and returns `undefined` on network error or non-success
HTTP status, and returns the parsed body on success.  The network outcome is
an input of the model: `none` is the failure case (`data` stays `undefined`),
`some b` the success case with parsed body `b`. -/
def callAPI (networkOutcome : Option α) : Option α :=
  networkOutcome

/-- Model of `getTagId(tag)` from the source: destructures `const { data } = await
callAPI({...})` (which throws a `TypeError` when `callAPI` returned
`undefined`), then scans `data` with `forEach`, each exact name match
overwriting `tagId`, provided `data && data.length` is truthy.
The success body's `data` field is the tag list. -/
def getTagId (tagsOutcome : Option (List Tag)) (tag : String) :
    Except JsError (Option String) :=
  match callAPI tagsOutcome with
  | none =>
      Except.error (JsError.typeError
        "Cannot destructure property data of undefined")
  | some data =>
      let tagId : Option String :=
        if data.length != 0 then
          data.foldl (fun acc u => if u.name == tag then some u.id else acc)
            none
        else none
      Except.ok tagId

/-- Model of `getTasks(tagId)` from the source: `const { data } = await callAPI({...})
|| [];` — on failure the `|| []` fallback is an array whose `data` property
is `undefined`, and the subsequent `data.filter(...)` throws a `TypeError`.
On success it keeps only tasks with a project whose stringified id equals
`ASANA_PROJECT_ID`. -/
def getTasks (tasksOutcome : Option (List Task)) (projectId : String) :
    Except JsError (List Task) :=
  let dataField : Option (List Task) :=
    match callAPI tasksOutcome with
    | some body => some body
    | none => none
  match dataField with
  | some data =>
      Except.ok (data.filter
        (fun o => (o.projects.find? (fun oo => oo.id == projectId)).isSome))
  | none =>
      Except.error (JsError.typeError
        "Cannot read property filter of undefined")

/-- The comparator `({id: a}, {id: b}) => a > b ? 1 : (a < b ? -1 : 0)`:
ascending lexicographic string order on task ids, ties compare equal.
JavaScript compares strings lexicographically on their code-unit sequences,
modelled as the lexicographic order on the ids' character lists. -/
def taskLe (a b : Task) : Prop :=
  a.id.data ≤ b.id.data

instance : DecidableRel taskLe :=
  fun a b => inferInstanceAs (Decidable (a.id.data ≤ b.id.data))

instance : IsTotal Task taskLe :=
  ⟨fun a b => le_total a.id.data b.id.data⟩

instance : IsTrans Task taskLe :=
  ⟨fun _ _ _ hab hbc => le_trans hab hbc⟩

/-- Model of `tasks.sort(comparator)`: ECMAScript `Array.prototype.sort` is required
to be stable, and a stable sort for the total preorder induced by the
comparator is unique, so it is modelled by the stable `List.insertionSort`. -/
def sortTasks (tasks : List Task) : List Task :=
  List.insertionSort taskLe tasks

/-- One bullet line: `* [\`id\`](PROJECT_URL/id) - name`. -/
def taskLine (projectUrl : String) (t : Task) : String :=
  "* [`" ++ t.id ++ "`](" ++ projectUrl ++ "/" ++ t.id ++ ") - " ++ t.name

/-- Left-to-right scanner for the regex replace `/ {2,}/g` with `''`.  The
flag records whether the scanner is inside a maximal run of two or more
spaces that is being removed: in that mode further spaces of the run are
dropped and the first non-space character leaves the mode.  Outside the
mode, a space followed by another space starts a removed run (the whole
run is replaced by the empty string), while a space followed by a
non-space character, or at the end, is a single space and is kept. -/
def collapseGo : Bool → List Char → List Char
  | _, [] => []
  | true, c :: cs =>
    if c == ' ' then collapseGo true cs else c :: collapseGo false cs
  | false, c :: cs =>
    if c == ' ' then
      match cs with
      | c2 :: _ => if c2 == ' ' then collapseGo true cs
                   else c :: collapseGo false cs
      | [] => [c]
    else c :: collapseGo false cs

/-- The regex replace `/ {2,}/g` with `''`: every maximal run of two or more
consecutive space characters is removed; single spaces and all other
characters (newlines included) are untouched. -/
def collapseSpaces (l : List Char) : List Char :=
  collapseGo false l

/-- String form of `collapseSpaces`. -/
def collapseStr (s : String) : String :=
  String.mk (collapseSpaces s.data)

/-- Model of `createContent(version, type, tasks)` from the source, with the impure
parts made explicit: `moment()`'s two formatted strings are the inputs
`dateStr`/`timeStr`, `ASANA_PROJECT_URL` is `projectUrl`, and the in-place
`tasks.sort` mutation is returned as the second component (the state of the
caller's array after the call). -/
def createContent (projectUrl version type : String) (tasks : List Task)
    (dateStr timeStr : String) : String × List Task :=
  let sorted := sortTasks tasks
  let items := String.intercalate "\n" (sorted.map (taskLine projectUrl))
  let raw :=
    "# ATLAS " ++ version ++ " Release Notes\n" ++
    "  _Tasks may be viewed directly on Asana by clicking their taskId_\n" ++
    "  &nbsp;\n" ++
    "  ##### Release Type:\n" ++
    "  - [" ++ (if type == "major" then "x" else " ") ++ "] Major\n" ++
    "  - [" ++ (if type == "minor" then "x" else " ") ++ "] Minor\n" ++
    "  - [" ++ (if type == "patch" then "x" else " ") ++ "] Patch\n" ++
    "  &nbsp;\n" ++
    "  ##### Items completed:\n" ++
    "  " ++ items ++ " \n\n" ++
    "  &nbsp;\n" ++
    "  _Generated " ++ dateStr ++ " at " ++ timeStr ++ "_\n" ++
    "  "
  (collapseStr raw, sorted)

/-- Modelled from the spec: `wrapBody` lives in `template.js`, which is not
part of the given sources; per §4.6 it wraps an HTML fragment in a fixed page
template with a font-size parameter.  Only used opaquely by the pipeline. -/
def wrapBody (body : String) (fontSize : Nat) : String :=
  "<html><body style=font-size:" ++ toString fontSize ++ "px>" ++ body ++
    "</body></html>"

/-- A filesystem operation issued by the pipeline. -/
inductive FsOp where
  | mkdirOp (dir : String)
  | writeOp (path : String) (content : String)
  | pdfOp (path : String) (html : String)
deriving DecidableEq, Repr

/-- Model of `render(text)`: POST to the GitHub markdown API through `callAPI`;
`none` models a failed render (the function returns `undefined`). -/
def render (renderOutcome : Option String) : Option String :=
  callAPI renderOutcome

/-- Model of `genNotes(version, type, tasks)` as the trace of filesystem operations it
issues: `mkdir` (aborting on failure), then the Markdown write of the exact
`createContent` text, then — only if `render` returned a truthy body — the
HTML write and the PDF creation of the wrapped body. -/
def genNotes (projectUrl version type : String) (tasks : List Task)
    (dateStr timeStr : String) (mkdirOk : Bool)
    (renderOutcome : Option String) : List FsOp :=
  let dir := "./releases/v" ++ version
  let filePath := dir ++ "/v" ++ version
  let text := (createContent projectUrl version type tasks dateStr timeStr).1
  if mkdirOk then
    FsOp.mkdirOp dir ::
    FsOp.writeOp (filePath ++ ".md") text ::
    (match render renderOutcome with
     | some htmlBody =>
        if htmlBody == "" then []
        else
          [FsOp.writeOp (filePath ++ ".html") (wrapBody htmlBody 16),
           FsOp.pdfOp (filePath ++ ".pdf") (wrapBody htmlBody 12)]
     | none => [])
  else [FsOp.mkdirOp dir]

/-- The `prompt.get` callback: given a prompt result, resolve the tag id;
only when it is truthy fetch the tasks and generate the notes.  A thrown
`JsError` in `getTagId`/`getTasks` rejects the async callback, so nothing
further runs and the trace is empty. -/
def promptCallback (result : Option (String × String))
    (tagsOutcome : Option (List Tag)) (tasksOutcome : Option (List Task))
    (projectUrl projectId dateStr timeStr : String) (mkdirOk : Bool)
    (renderOutcome : Option String) : List FsOp :=
  match result with
  | none => []
  | some (version, type) =>
    match getTagId tagsOutcome ("v" ++ version) with
    | Except.error _ => []
    | Except.ok none => []
    | Except.ok (some tagId) =>
      if tagId == "" then []
      else
        match getTasks tasksOutcome projectId with
        | Except.error _ => []
        | Except.ok tasks =>
            genNotes projectUrl version type.toLower tasks dateStr timeStr
              mkdirOk renderOutcome

/-- Tests whether `pat` is a prefix of the second list. -/
def prefixOfChars : List Char → List Char → Bool
  | [], _ => true
  | _ :: _, [] => false
  | a :: as, b :: bs => a == b && prefixOfChars as bs

/-- Index of the first occurrence of `pat` as a contiguous substring. -/
def findSub (pat : List Char) : List Char → Option Nat
  | [] => if pat.isEmpty then some 0 else none
  | c :: cs =>
    if prefixOfChars pat (c :: cs) then some 0
    else (findSub pat cs).map (fun n => n + 1)

/-- Tests whether `pat` occurs as a contiguous substring of `s`. -/
def containsSub (s pat : String) : Bool :=
  (findSub pat.data s.data).isSome

/-- Both `a` and `b` occur in `s`, and the first occurrence of `a` starts
strictly before the first occurrence of `b`. -/
def listsBefore (s a b : String) : Bool :=
  match findSub a.data s.data, findSub b.data s.data with
  | some i, some j => decide (i < j)
  | _, _ => false

/-- No two consecutive space characters. -/
def noDouble : List Char → Bool
  | c1 :: c2 :: rest => !(c1 == ' ' && c2 == ' ') && noDouble (c2 :: rest)
  | _ => true

/-! ## Claim theorems -/

/-- C1: the claim says that when the underlying API call fails, `getTasks`
returns an empty sequence and never raises.  In the code, `const { data } =
await callAPI({...}) || []` leaves `data` undefined on a failed call (the
`[]` fallback has no `data` property), so `data.filter(...)` throws a
`TypeError`: at the failing input the fetcher raises instead of returning an
empty sequence. -/
theorem getTasks_throws_on_failed_call :
    getTasks none "123" =
      Except.error (JsError.typeError
        "Cannot read property filter of undefined") :=
  rfl

/-- C2: the claim says `getTagId` returns an empty result both on API failure
and on a non-matching tag list, without raising.  The non-matching half holds
(second conjunct), but on API failure `const { data } = await callAPI({...})`
destructures `undefined` and throws a `TypeError` before the `data &&
data.length` guard can run (first conjunct). -/
theorem getTagId_throws_on_failed_call :
    getTagId none "v1.5.0" =
      Except.error (JsError.typeError
        "Cannot destructure property data of undefined")
    ∧ getTagId (some [⟨"10", "v9.9.9"⟩]) "v1.5.0" = Except.ok none :=
  ⟨rfl, rfl⟩

/-- The document generated in the spec's concrete scenario: version "1.5.0",
type "minor", tasks id "102" / id "57", with concrete project URL and
timestamp inputs. -/
def scenarioDoc : String :=
  (createContent "https://app.asana.com/0/123" "1.5.0" "minor"
    [⟨"102", "Fix login", []⟩, ⟨"57", "Add logout", []⟩]
    "10/11/2026" "01:00 PM").1

/-- C3 counterexample: at the claim's concrete input the generated document
does NOT list task id "57" before task id "102" — ascending lexicographic
string order puts "102" ('1' < '5') first. -/
theorem scenarioDoc_no_57_before_102 :
    listsBefore scenarioDoc "57" "102" = false :=
  rfl

/-- C3 amended: at the concrete input version "1.5.0", type "minor", tasks
id "102" and id "57", the generated document lists "102" before "57"
(ascending lexicographic string order), with the minor checkbox marked and
the major and patch checkboxes unmarked. -/
theorem scenarioDoc_lists_102_first :
    listsBefore scenarioDoc "102" "57" = true
    ∧ containsSub scenarioDoc "- [x] Minor" = true
    ∧ containsSub scenarioDoc "- [ ] Major" = true
    ∧ containsSub scenarioDoc "- [ ] Patch" = true
    ∧ containsSub scenarioDoc "- [x] Major" = false
    ∧ containsSub scenarioDoc "- [x] Patch" = false :=
  ⟨rfl, rfl, rfl, rfl, rfl, rfl⟩

/-- Unfolding `sortTasks` one step. -/
theorem sortTasks_cons (a : Task) (l : List Task) :
    sortTasks (a :: l) = List.orderedInsert taskLe a (sortTasks l) :=
  rfl

/-- Inserting a task into a list does not disturb the sublist of tasks whose
id is any fixed key `k`: the inserted task lands in front of the key-`k`
tasks exactly when its own id is `k` (every element passed over on the way
in has a strictly smaller id, hence a different id). -/
theorem filter_orderedInsert (a : Task) (L : List Task) (k : String) :
    (List.orderedInsert taskLe a L).filter (fun t => t.id == k) =
      if a.id == k then a :: L.filter (fun t => t.id == k)
      else L.filter (fun t => t.id == k) := by
  induction L with
  | nil =>
    by_cases h : (a.id == k) = true <;> simp [List.orderedInsert, h]
  | cons b L ih =>
    by_cases hab : taskLe a b
    · rw [List.orderedInsert, if_pos hab]
      by_cases h : (a.id == k) = true <;> simp [List.filter_cons, h]
    · rw [List.orderedInsert, if_neg hab]
      by_cases hb : (b.id == k) = true
      · have hak : (a.id == k) = false := by
          rcases eq_or_ne a.id k with he | hne
          · exfalso
            apply hab
            have hbk : b.id = k := by simpa using hb
            show a.id.data ≤ b.id.data
            rw [he, hbk]
          · simpa using hne
        simp [List.filter_cons, hb, hak, ih]
      · simp [List.filter_cons, hb, ih]

/-- Stability of the sort: for every key, the key's tasks appear in the
sorted list exactly as they appear in the input list. -/
theorem filter_sortTasks (tasks : List Task) (k : String) :
    (sortTasks tasks).filter (fun t => t.id == k) =
      tasks.filter (fun t => t.id == k) := by
  induction tasks with
  | nil => rfl
  | cons a l ih =>
    rw [sortTasks_cons, filter_orderedInsert]
    by_cases h : (a.id == k) = true <;> simp [List.filter_cons, h, ih]

/-- C4: the task list rendered into the document is `sortTasks tasks`
(`createContent` maps the bullet lines over it); it is sorted ascending by
id under string comparison, it is a permutation of the input, and the sort
is stable: for every id, the tasks carrying that id appear in their original
relative order (equal ids make the comparator return 0). -/
theorem sortTasks_sorted_stable (tasks : List Task) :
    List.Sorted taskLe (sortTasks tasks)
    ∧ List.Perm (sortTasks tasks) tasks
    ∧ (∀ k : String, (sortTasks tasks).filter (fun t => t.id == k) =
        tasks.filter (fun t => t.id == k)) :=
  ⟨List.sorted_insertionSort taskLe tasks,
   List.perm_insertionSort taskLe tasks,
   fun k => filter_sortTasks tasks k⟩

/-- C9 counterexample: `tasks.sort` sorts the caller's array in place, so
after `createContent` returns, the caller's (unsorted) list has been
reordered — here `[id "2", id "1"]` has become `[id "1", id "2"]`,
contradicting "the caller's list is unchanged". -/
theorem createContent_mutates_caller :
    (createContent "u" "1.0.0" "patch" [⟨"2", "b", []⟩, ⟨"1", "a", []⟩]
        "d" "t").2 ≠ [⟨"2", "b", []⟩, ⟨"1", "a", []⟩] := by
  decide

/-- C9 amended: `createContent` performs no file or network I/O, but it is
not pure: it reads the clock (modelled by the `dateStr`/`timeStr` inputs)
and sorts the caller's task array in place.  After the call the caller's
list is the stable ascending-by-id permutation of the original, and it is
left unchanged precisely when it was already sorted. -/
theorem createContent_sorts_in_place (pu v ty d t : String)
    (tasks : List Task) :
    List.Perm (createContent pu v ty tasks d t).2 tasks
    ∧ List.Sorted taskLe (createContent pu v ty tasks d t).2
    ∧ (List.Sorted taskLe tasks →
        (createContent pu v ty tasks d t).2 = tasks) := by
  refine ⟨?_, ?_, ?_⟩
  · simpa [createContent, sortTasks] using List.perm_insertionSort taskLe tasks
  · simpa [createContent, sortTasks] using
      List.sorted_insertionSort taskLe tasks
  · intro h
    simpa [createContent, sortTasks] using h.insertionSort_eq

/-- C9 witness: on an already sorted caller list the amended theorem yields
that the list is unchanged. -/
theorem createContent_sorts_in_place_witness :
    (createContent "u" "1.0.0" "patch" [⟨"1", "a", []⟩] "d" "t").2 =
      [⟨"1", "a", []⟩] :=
  (createContent_sorts_in_place "u" "1.0.0" "patch" "d" "t"
      [⟨"1", "a", []⟩]).2.2 (List.sorted_singleton _)

/-- A non-space head passes through the scanner unchanged (leaving
removed-run mode when it was on). -/
theorem collapseGo_cons_nonspace (b : Bool) (c : Char) (cs : List Char)
    (h : (c == ' ') = false) :
    collapseGo b (c :: cs) = c :: collapseGo false cs := by
  cases b with
  | true => simp [collapseGo, h]
  | false =>
    cases cs with
    | nil => simp [collapseGo, h]
    | cons d ds => simp [collapseGo, h]

/-- In removed-run mode a space is dropped. -/
theorem collapseGo_true_space (cs : List Char) :
    collapseGo true (' ' :: cs) = collapseGo true cs :=
  rfl

/-- Two consecutive spaces start a removed run. -/
theorem collapseGo_false_space_space (cs2 : List Char) :
    collapseGo false (' ' :: ' ' :: cs2) = collapseGo true cs2 :=
  rfl

/-- A space followed by a non-space character is a single space: kept. -/
theorem collapseGo_false_space_nonspace (c2 : Char) (cs2 : List Char)
    (h : (c2 == ' ') = false) :
    collapseGo false (' ' :: c2 :: cs2) = ' ' :: collapseGo false (c2 :: cs2) := by
  simp [collapseGo, h]

/-- The predicate `noDouble` ignores a non-space head. -/
theorem noDouble_cons_nonspace (c : Char) (l : List Char)
    (h : (c == ' ') = false) :
    noDouble (c :: l) = noDouble l := by
  cases l with
  | nil => rfl
  | cons d ds => simp [noDouble, h]

/-- The predicate `noDouble` restricted to the tail. -/
theorem noDouble_tail (c : Char) (l : List Char)
    (h : noDouble (c :: l) = true) : noDouble l = true := by
  cases l with
  | nil => rfl
  | cons d ds =>
    simp only [noDouble, Bool.and_eq_true] at h
    exact h.2

/-- The scanner's output never contains two consecutive spaces. -/
theorem noDouble_collapseGo :
    ∀ (l : List Char) (b : Bool), noDouble (collapseGo b l) = true := by
  intro l
  induction l with
  | nil => intro b; cases b <;> rfl
  | cons c cs ih =>
    intro b
    cases hc : c == ' ' with
    | false =>
      rw [collapseGo_cons_nonspace b c cs hc, noDouble_cons_nonspace c _ hc]
      exact ih false
    | true =>
      have hc' : c = ' ' := by simpa using hc
      subst hc'
      cases b with
      | true =>
        rw [collapseGo_true_space]
        exact ih true
      | false =>
        cases cs with
        | nil => rfl
        | cons c2 cs2 =>
          cases hc2 : c2 == ' ' with
          | true =>
            have hc2' : c2 = ' ' := by simpa using hc2
            subst hc2'
            rw [collapseGo_false_space_space]
            have h2 := ih true
            rwa [collapseGo_true_space] at h2
          | false =>
            rw [collapseGo_false_space_nonspace c2 cs2 hc2,
              collapseGo_cons_nonspace false c2 cs2 hc2]
            have hstep : noDouble (' ' :: c2 :: collapseGo false cs2) =
                noDouble (c2 :: collapseGo false cs2) := by
              simp [noDouble, hc2]
            rw [hstep, ← collapseGo_cons_nonspace false c2 cs2 hc2]
            exact ih false

/-- Lists with no two consecutive spaces are fixed points of the scanner:
in particular every single space is preserved. -/
theorem collapseGo_of_noDouble :
    ∀ l : List Char, noDouble l = true → collapseGo false l = l := by
  intro l
  induction l with
  | nil => intro _; rfl
  | cons c cs ih =>
    intro h
    cases hc : c == ' ' with
    | false =>
      rw [collapseGo_cons_nonspace false c cs hc, ih (noDouble_tail c _ h)]
    | true =>
      have hc' : c = ' ' := by simpa using hc
      subst hc'
      cases cs with
      | nil => rfl
      | cons c2 cs2 =>
        cases hc2 : c2 == ' ' with
        | true =>
          have hc2' : c2 = ' ' := by simpa using hc2
          subst hc2'
          simp [noDouble] at h
        | false =>
          rw [collapseGo_false_space_nonspace c2 cs2 hc2,
            ih (noDouble_tail _ _ h)]

/-- The scanner removes only space characters: the subsequence of non-space
characters (newlines included) is untouched. -/
theorem filter_collapseGo :
    ∀ (l : List Char) (b : Bool),
      (collapseGo b l).filter (fun c => !(c == ' ')) =
        l.filter (fun c => !(c == ' ')) := by
  intro l
  induction l with
  | nil => intro b; cases b <;> rfl
  | cons c cs ih =>
    intro b
    cases hc : c == ' ' with
    | false =>
      rw [collapseGo_cons_nonspace b c cs hc, List.filter_cons,
        List.filter_cons]
      simp only [hc, Bool.not_false, if_true]
      rw [ih false]
    | true =>
      have hc' : c = ' ' := by simpa using hc
      subst hc'
      have hdrop : ∀ t : List Char,
          (' ' :: t).filter (fun c => !(c == ' ')) =
            t.filter (fun c => !(c == ' ')) := by
        intro t
        rw [List.filter_cons]
        simp
      cases b with
      | true =>
        rw [collapseGo_true_space, hdrop, ih true]
      | false =>
        cases cs with
        | nil => rfl
        | cons c2 cs2 =>
          cases hc2 : c2 == ' ' with
          | true =>
            have hc2' : c2 = ' ' := by simpa using hc2
            subst hc2'
            rw [collapseGo_false_space_space, hdrop, hdrop]
            have h2 := ih true
            rwa [collapseGo_true_space, hdrop] at h2
          | false =>
            rw [collapseGo_false_space_nonspace c2 cs2 hc2, hdrop, hdrop]
            exact ih false

/-- C5: the space-collapsing step is idempotent on every string, it removes
only space characters (every other character, newlines included, survives in
order), and every string without two consecutive spaces — in particular one
whose spaces are all single — is left entirely unchanged. -/
theorem collapse_idempotent_and_preserving :
    (∀ s : String, collapseStr (collapseStr s) = collapseStr s)
    ∧ (∀ l : List Char, (collapseSpaces l).filter (fun c => !(c == ' ')) =
        l.filter (fun c => !(c == ' ')))
    ∧ (∀ l : List Char, noDouble l = true → collapseSpaces l = l) := by
  refine ⟨?_, ?_, ?_⟩
  · intro s
    have h1 : collapseSpaces (collapseSpaces s.data) = collapseSpaces s.data :=
      collapseGo_of_noDouble _ (noDouble_collapseGo s.data false)
    exact congrArg String.mk h1
  · intro l
    exact filter_collapseGo l false
  · intro l h
    exact collapseGo_of_noDouble l h

/-- C5 witness: a string whose spaces are single (here one space and one
newline) is unchanged by the collapsing step. -/
theorem collapse_idempotent_and_preserving_witness :
    collapseSpaces ['a', ' ', 'b', '\n'] = ['a', ' ', 'b', '\n'] :=
  collapse_idempotent_and_preserving.2.2 ['a', ' ', 'b', '\n'] (by decide)

/-- C6: in a run whose render stage fails (and whose directory creation
succeeded, so the write stage is reached), the trace is exactly the
directory creation followed by the Markdown write whose content is
byte-identical to the Content Builder's output; no PDF operation occurs and
every file write in the trace carries exactly the builder's text (so no HTML
file is written either). -/
theorem genNotes_render_failure (pu v ty d t : String) (tasks : List Task) :
    genNotes pu v ty tasks d t true none =
      [FsOp.mkdirOp ("./releases/v" ++ v),
       FsOp.writeOp ("./releases/v" ++ v ++ "/v" ++ v ++ ".md")
         ((createContent pu v ty tasks d t).1)]
    ∧ (∀ p h, FsOp.pdfOp p h ∉ genNotes pu v ty tasks d t true none)
    ∧ (∀ p c, FsOp.writeOp p c ∈ genNotes pu v ty tasks d t true none →
        p = "./releases/v" ++ v ++ "/v" ++ v ++ ".md"
        ∧ c = (createContent pu v ty tasks d t).1) := by
  refine ⟨rfl, ?_, ?_⟩
  · intro p h hmem
    simp [genNotes, render, callAPI] at hmem
  · intro p c hmem
    simpa [genNotes, render, callAPI] using hmem

/-- C6 witness: instantiation at concrete inputs. -/
theorem genNotes_render_failure_witness :
    FsOp.pdfOp "p" "h" ∉ genNotes "u" "1.0.0" "minor" [] "d" "t" true none :=
  (genNotes_render_failure "u" "1.0.0" "minor" "d" "t" []).2.1 "p" "h"

/-- C7: when tag resolution yields no tag id — the `getTagId` promise
rejects, or it resolves without a matching tag — the prompt callback issues
no filesystem operation at all: no directory creation, no Markdown, HTML or
PDF write. -/
theorem pipeline_aborts_without_tagId (version type : String)
    (tagsOutcome : Option (List Tag)) (tasksOutcome : Option (List Task))
    (pu pid d t : String) (mkdirOk : Bool) (renderOutcome : Option String)
    (h : ∀ tid : String,
      getTagId tagsOutcome ("v" ++ version) ≠ Except.ok (some tid)) :
    promptCallback (some (version, type)) tagsOutcome tasksOutcome pu pid d t
      mkdirOk renderOutcome = [] := by
  cases hg : getTagId tagsOutcome ("v" ++ version) with
  | error e => simp [promptCallback, hg]
  | ok o =>
    cases o with
    | none => simp [promptCallback, hg]
    | some tid => exact absurd hg (h tid)

/-- C7 witness: with a failed tag-list call nothing is written. -/
theorem pipeline_aborts_without_tagId_witness :
    promptCallback (some ("1.5.0", "minor")) none none "u" "p" "d" "t" true
      none = [] :=
  pipeline_aborts_without_tagId "1.5.0" "minor" none none "u" "p" "d" "t"
    true none (fun tid h => by simp [getTagId, callAPI] at h)

/-- C8: on a successful query, `getTasks` returns exactly the tasks of the
response whose project membership includes the configured project id; every
task lacking that membership is excluded even though the query returned
it. -/
theorem getTasks_keeps_project_members (data : List Task) (pid : String) :
    ∃ res, getTasks (some data) pid = Except.ok res ∧
      ∀ t : Task, t ∈ res ↔ t ∈ data ∧ ∃ p ∈ t.projects, p.id = pid := by
  refine ⟨_, rfl, ?_⟩
  intro t
  simp [getTasks, callAPI, List.mem_filter, List.find?_isSome]

/-- C8 witness: instantiation at a concrete response. -/
theorem getTasks_keeps_project_members_witness :
    ∃ res, getTasks (some [⟨"7", "n", [⟨"1"⟩]⟩]) "1" = Except.ok res ∧
      ∀ t : Task, t ∈ res ↔
        t ∈ [(⟨"7", "n", [⟨"1"⟩]⟩ : Task)] ∧ ∃ p ∈ t.projects, p.id = "1" :=
  getTasks_keeps_project_members [⟨"7", "n", [⟨"1"⟩]⟩] "1"

/-- The `forEach` scan (modelled as a left fold) ends with the id of the
last matching tag, or the initial accumulator when nothing matches. -/
theorem foldl_tagScan (tag : String) :
    ∀ (data : List Tag) (init : Option String),
      data.foldl (fun acc u => if u.name == tag then some u.id else acc)
          init =
        match (data.filter (fun u => u.name == tag)).getLast? with
        | some u => some u.id
        | none => init := by
  intro data
  induction data with
  | nil => intro init; rfl
  | cons u rest ih =>
    intro init
    rw [List.foldl_cons, ih]
    cases hu : u.name == tag with
    | false =>
      rw [List.filter_cons_of_neg (by simpa using hu)]
      simp [hu]
    | true =>
      rw [List.filter_cons_of_pos (by simpa using hu)]
      cases hf : rest.filter (fun x => x.name == tag) with
      | nil => simp [hu, hf]
      | cons w ws =>
        have hlast : ∃ x, (w :: ws).getLast? = some x := by
          cases hws : (w :: ws).getLast? with
          | none => simp [List.getLast?] at hws
          | some x => exact ⟨x, rfl⟩
        obtain ⟨x, hx⟩ := hlast
        rw [List.getLast?_cons_cons, hx]

/-- C10: when the fetched tag list contains two or more tags whose name is
exactly the requested one, `getTagId` resolves to the id of the LAST such
tag in list order — each later match overwrites the earlier ones in the
`forEach` scan. -/
theorem getTagId_last_match_wins (data : List Tag) (tag : String)
    (h : 2 ≤ (data.filter (fun u => u.name == tag)).length) :
    ∃ u, (data.filter (fun u => u.name == tag)).getLast? = some u ∧
      getTagId (some data) tag = Except.ok (some u.id) := by
  have hne : data.filter (fun u => u.name == tag) ≠ [] := by
    intro he
    rw [he] at h
    simp at h
  obtain ⟨u, hu⟩ := Option.isSome_iff_exists.mp (List.getLast?_isSome.mpr hne)
  refine ⟨u, hu, ?_⟩
  have hdata : (data.length != 0) = true := by
    rcases data with _ | ⟨v, vs⟩
    · simp at hne
    · simp
  simp only [getTagId, callAPI, hdata, if_true]
  rw [foldl_tagScan, hu]

/-- C10 witness: two tags named "v1" — the second one's id is returned. -/
theorem getTagId_last_match_wins_witness :
    ∃ u, (([⟨"1", "v1"⟩, ⟨"2", "v1"⟩] : List Tag).filter
        (fun u => u.name == "v1")).getLast? = some u ∧
      getTagId (some [⟨"1", "v1"⟩, ⟨"2", "v1"⟩]) "v1" =
        Except.ok (some u.id) :=
  getTagId_last_match_wins [⟨"1", "v1"⟩, ⟨"2", "v1"⟩] "v1" (by decide)

end AsanaNotes
